import Mathlib

/-!
Shallow embedding of the multi-source animation system (three-phase timeline
engine, keyframe track sampler, clip extractor, transform composer, playback
accessors) of this repository, together with theorems settling the frozen
claims about its natural-language specification.

Conventions of the embedding:
* JavaScript numbers are modelled as exact rationals (`ℚ`) where the code is
  pure arithmetic, and as reals (`ℝ`) where the code calls trigonometric
  library routines (Euler/quaternion conversions, slerp).
* A JavaScript division whose result may be non-finite (`Infinity`/`NaN`,
  i.e. a zero denominator) is modelled as `Option ℚ`, `none` standing for the
  non-finite outcome.
* JavaScript array reads within bounds are modelled with `List.getD _ _ 0`;
  all inputs considered by the theorems keep the reads in bounds.
* `null`-able animation records are modelled with `Option`.
-/

namespace Anim

/-- A JS division `a / b`: `none` models the non-finite result (`Infinity` or
`NaN`) produced when `b = 0`. -/
def jsDiv (a b : ℚ) : Option ℚ :=
  if b = 0 then none else some (a / b)

/-! ### Three-phase timeline engine
Embeds `MultiSourceAnimationExtractor.calculateThreePhaseDuration` and
`MultiSourceAnimationExtractor.getCurrentPhase`.  Of an extracted animation
record only its `duration` field is relevant here, so `animationData.v6Original`,
`animationData.camera` and each entry of `animationData.rings` are modelled as
`Option ℚ` (a `null` record, or its duration). -/

structure PhaseDurations where
  phase1 : ℚ
  phase2 : ℚ
  phase3 : ℚ
  deriving DecidableEq, Repr

/-- Phase-3 duration: starts at 0, then `Math.max` with the camera duration when
the camera record is present, then `Math.max` with each present ring duration. -/
def phase3Duration (camera : Option ℚ) (rings : List (Option ℚ)) : ℚ :=
  let base : ℚ := match camera with
    | some d => max 0 d
    | none => 0
  rings.foldl (fun acc r => match r with
    | some d => max acc d
    | none => acc) base

/-- `calculateThreePhaseDuration`: phase 1 is the v6 clip duration when the
record is present with positive duration, else the hardcoded 7.0s fallback;
phase 2 is the fixed 2.0s camera transition; phase 3 is the maximum duration
over the present phase-3 sources. -/
def calculateThreePhaseDuration (v6Original camera : Option ℚ)
    (rings : List (Option ℚ)) : PhaseDurations :=
  { phase1 :=
      match v6Original with
      | some d => if d > 0 then d else 7
      | none => 7
    phase2 := 2
    phase3 := phase3Duration camera rings }

/-- `this.totalDuration = phase1 + phase2 + phase3`. -/
def totalDuration (d : PhaseDurations) : ℚ :=
  d.phase1 + d.phase2 + d.phase3

/-- Result record of `getCurrentPhase`: 1-based phase number, phase-local time,
and progress (`none` = non-finite JS division result). -/
structure PhaseInfo where
  phase : ℕ
  phaseTime : ℚ
  progress : Option ℚ
  deriving DecidableEq, Repr

/-- `getCurrentPhase`: the branch bounds are inclusive (`time <= phase1`,
`time <= phase1 + phase2`), and `progress = phaseTime / phaseDuration` with no
guard against a zero phase duration. -/
def getCurrentPhase (d : PhaseDurations) (time : ℚ) : PhaseInfo :=
  if time ≤ d.phase1 then
    { phase := 1, phaseTime := time, progress := jsDiv time d.phase1 }
  else if time ≤ d.phase1 + d.phase2 then
    { phase := 2, phaseTime := time - d.phase1
      progress := jsDiv (time - d.phase1) d.phase2 }
  else
    { phase := 3, phaseTime := time - (d.phase1 + d.phase2)
      progress := jsDiv (time - (d.phase1 + d.phase2)) d.phase3 }

/-! ### Timeline-end adjustment window
Embeds the adjustment-factor computation of `AnimatedRings` (and the identical
one in `AnimatedCamera`): within the final 1.5 seconds of the total timeline,
`adjustFactor = min(1, (currentTime - (totalDuration - 1.5)) / 1.5)`, else 0. -/

def endAdjustFactor (total currentTime : ℚ) : ℚ :=
  if total - 3 / 2 ≤ currentTime then
    min 1 ((currentTime - (total - 3 / 2)) / (3 / 2))
  else 0

/-! ### Track sampler
Embeds `MultiSourceAnimationExtractor.interpolateProperty` (the identical
routine appears in `src/MultiSourceAnimationExtractor.js`).  A processed track
is a flat list of keyframe times and a flat list of values.  The quaternion
branch of the interior interpolation calls `THREE.Quaternion.slerpQuaternions`,
which is external library code; the embedding takes that routine as the
function parameter `slerpFn`. -/

structure JsTrack where
  times : List ℚ
  values : List ℚ
  deriving DecidableEq, Repr

structure Quat4 where
  x : ℚ
  y : ℚ
  z : ℚ
  w : ℚ
  deriving DecidableEq, Repr

/-- A sampled value: a 3-vector, a quaternion, or a scalar (`{value: …}`). -/
inductive SampleValue where
  | vec3 (x y z : ℚ)
  | quat (x y z w : ℚ)
  | scalar (v : ℚ)
  deriving DecidableEq, Repr

/-- The `for` loop of `interpolateProperty`: the first index `i` (starting at
`i`) with `times[i] <= time <= times[i+1]`, else `none` (the JS loop leaves
`index = 0` in that case). -/
def searchIntervalIdx : List ℚ → ℚ → ℕ → Option ℕ
  | t0 :: t1 :: rest, time, i =>
      if t0 ≤ time ∧ time ≤ t1 then some i else searchIntervalIdx (t1 :: rest) time (i + 1)
  | _, _, _ => none

/-- Index chosen by `interpolateProperty` for a non-empty `times`.  The JS code
runs the search loop, then overrides with `index = 0` when `time <= times[0]`
and finally with `index = times.length - 1` when `time >= times[last]`; the
sequential overrides are written here as a nested conditional (the last write
wins). -/
def interpIndex (times : List ℚ) (time : ℚ) : ℕ :=
  if times.getLastD 0 ≤ time then times.length - 1
  else if time ≤ times.getD 0 0 then 0
  else (searchIntervalIdx times time 0).getD 0

/-- The direct keyframe read (`index === times.length - 1 || times.length === 1`
branch): return keyframe `index` without interpolating. -/
def readDirect (values : List ℚ) (index componentCount : ℕ) : SampleValue :=
  if componentCount = 4 then
    .quat (values.getD (index * componentCount) 0) (values.getD (index * componentCount + 1) 0)
      (values.getD (index * componentCount + 2) 0) (values.getD (index * componentCount + 3) 0)
  else if componentCount = 1 then
    .scalar (values.getD (index * componentCount) 0)
  else
    .vec3 (values.getD (index * componentCount) 0) (values.getD (index * componentCount + 1) 0)
      (values.getD (index * componentCount + 2) 0)

/-- The interior branch of `interpolateProperty`: compute
`factor = (time - t1) / (t2 - t1)` over interval `index` and interpolate
(linearly per component, or via `slerpFn` for quaternions). -/
def lerpAt (slerpFn : Quat4 → Quat4 → ℚ → Quat4) (track : JsTrack) (time : ℚ)
    (index componentCount : ℕ) : SampleValue :=
  let t1 := track.times.getD index 0
  let t2 := track.times.getD (index + 1) 0
  let factor := (time - t1) / (t2 - t1)
  let si := index * componentCount
  let ei := (index + 1) * componentCount
  if componentCount = 4 then
    let q := slerpFn
      ⟨track.values.getD si 0, track.values.getD (si + 1) 0,
        track.values.getD (si + 2) 0, track.values.getD (si + 3) 0⟩
      ⟨track.values.getD ei 0, track.values.getD (ei + 1) 0,
        track.values.getD (ei + 2) 0, track.values.getD (ei + 3) 0⟩
      factor
    .quat q.x q.y q.z q.w
  else if componentCount = 1 then
    .scalar (track.values.getD si 0 + (track.values.getD ei 0 - track.values.getD si 0) * factor)
  else
    .vec3 (track.values.getD si 0 + (track.values.getD ei 0 - track.values.getD si 0) * factor)
      (track.values.getD (si + 1) 0
        + (track.values.getD (ei + 1) 0 - track.values.getD (si + 1) 0) * factor)
      (track.values.getD (si + 2) 0
        + (track.values.getD (ei + 2) 0 - track.values.getD (si + 2) 0) * factor)

/-- `interpolateProperty(track, time, componentCount)`: empty tracks sample to
the kind's neutral value; otherwise locate the index, take the direct read at
the last keyframe (or a single keyframe), else interpolate inside the
interval. -/
def interpolateProperty (slerpFn : Quat4 → Quat4 → ℚ → Quat4) (track : JsTrack)
    (time : ℚ) (componentCount : ℕ) : SampleValue :=
  if track.times.length = 0 then
    if componentCount = 4 then .quat 0 0 0 1
    else if componentCount = 1 then .scalar 0
    else .vec3 0 0 0
  else if interpIndex track.times time = track.times.length - 1 ∨ track.times.length = 1 then
    readDirect track.values (interpIndex track.times time) componentCount
  else
    lerpAt slerpFn track time (interpIndex track.times time) componentCount

/-! ### Clip extractor
Embeds `AnimationExtractor.extractObjectAnimationTracks` with the default
`transformations = {}` of its signature (`positionScale = 1.0`,
`rotationOffset = [0, 0, 0]`; with an all-zero offset the quaternion branch
skips its offset multiplication).  A raw track name `"<node>.<prop>"` is
modelled by the list of its dot-separated parts, i.e. the result of the JS
`name.split('.')`; `split[1]` being `undefined` for a dot-free name is
modelled by the `""` default, which matches no property case. -/

structure RawTrack where
  nameParts : List String
  times : List ℚ
  values : List ℚ

structure RawAnimation where
  duration : ℚ
  tracks : List RawTrack

structure ProcTrack where
  times : List ℚ
  values : List ℚ
  deriving DecidableEq, Repr

structure ExtractedTracks where
  position : Option ProcTrack
  rotation : Option ProcTrack
  scale : Option ProcTrack
  duration : ℚ
  trackCount : ℕ
  deriving DecidableEq, Repr

/-- `processPositionTrack` with the default `positionScale = 1.0`. -/
def processPositionTrack (t : RawTrack) : ProcTrack :=
  ⟨t.times, t.values.map (· * 1)⟩

/-- `processRotationTrack` with the default `rotationOffset = [0, 0, 0]`. -/
def processRotationTrack (t : RawTrack) : ProcTrack :=
  ⟨t.times, t.values.map (· + 0)⟩

/-- `processQuaternionTrack` with the default offset `[0, 0, 0]`: the offset
multiplication is skipped, values are copied. -/
def processQuaternionTrack (t : RawTrack) : ProcTrack :=
  ⟨t.times, t.values⟩

/-- `processScaleTrack`: values are copied. -/
def processScaleTrack (t : RawTrack) : ProcTrack :=
  ⟨t.times, t.values⟩

/-- The per-track body of the extraction loop: on a node-name match bump
`trackCount` and store the processed track in the field selected by the
property suffix. -/
def applyTrack (et : ExtractedTracks) (objectName : String) (tr : RawTrack) :
    ExtractedTracks :=
  if tr.nameParts.headD "" = objectName then
    let et' := { et with trackCount := et.trackCount + 1 }
    match tr.nameParts.getD 1 "" with
    | "position" => { et' with position := some (processPositionTrack tr) }
    | "rotation" => { et' with rotation := some (processRotationTrack tr) }
    | "scale" => { et' with scale := some (processScaleTrack tr) }
    | "quaternion" => { et' with rotation := some (processQuaternionTrack tr) }
    | _ => et'
  else et

/-- The per-animation body: `if (animation.duration > extractedTracks.duration)`
update the duration, then process every track of the animation. -/
def applyAnimation (et : ExtractedTracks) (objectName : String) (a : RawAnimation) :
    ExtractedTracks :=
  a.tracks.foldl (fun acc tr => applyTrack acc objectName tr)
    (if a.duration > et.duration then { et with duration := a.duration } else et)

/-- `extractObjectAnimationTracks(animations, objectName)` (default
transformations): fold the per-animation body over the raw animation set,
starting from the record with absent tracks and duration 0. -/
def extractObjectAnimationTracks (animations : List RawAnimation)
    (objectName : String) : ExtractedTracks :=
  animations.foldl (fun acc a => applyAnimation acc objectName a)
    ⟨none, none, none, 0, 0⟩

/-! ### Playback accessors of the mapping system
Embeds `AnimationMappingSystem.getRingPosition` / `getRingRotation` /
`getRingScale` / `getRingTransformMatrix`.  The `ringTransforms` map is
modelled as an association list; `new THREE.Vector3()` is `(0,0,0)`,
`new THREE.Euler()` is the zero Euler rotation, `new THREE.Vector3(1,1,1)` is
`(1,1,1)` and `new THREE.Matrix4()` is the identity matrix.  The `.clone()`
calls only matter for JS aliasing and disappear in a pure model. -/

structure Vec3 where
  x : ℚ
  y : ℚ
  z : ℚ
  deriving DecidableEq, Repr

structure RingTransform where
  finalPosition : Vec3
  finalRotation : Vec3
  finalScale : Vec3
  finalMatrix : Matrix (Fin 4) (Fin 4) ℚ

def getRingPosition (ringTransforms : List (String × RingTransform))
    (ringId : String) : Vec3 :=
  match ringTransforms.lookup ringId with
  | some tr => tr.finalPosition
  | none => ⟨0, 0, 0⟩

def getRingRotation (ringTransforms : List (String × RingTransform))
    (ringId : String) : Vec3 :=
  match ringTransforms.lookup ringId with
  | some tr => tr.finalRotation
  | none => ⟨0, 0, 0⟩

def getRingScale (ringTransforms : List (String × RingTransform))
    (ringId : String) : Vec3 :=
  match ringTransforms.lookup ringId with
  | some tr => tr.finalScale
  | none => ⟨1, 1, 1⟩

def getRingTransformMatrix (ringTransforms : List (String × RingTransform))
    (ringId : String) : Matrix (Fin 4) (Fin 4) ℚ :=
  match ringTransforms.lookup ringId with
  | some tr => tr.finalMatrix
  | none => 1

/-! ### Camera blend phase and transform composer (real-valued part)
The camera transition (phase 2 of `getCameraTransformAtTime`) and the
Euler/quaternion conversions of `AnimationMappingSystem.combineTransforms` call
trigonometric library routines, so this part of the embedding lives over `ℝ`. -/

noncomputable section

@[ext]
structure Vec3R where
  x : ℝ
  y : ℝ
  z : ℝ

@[ext]
structure QuatR where
  x : ℝ
  y : ℝ
  z : ℝ
  w : ℝ

/-- The cubic ease-in-out used by the camera transition and the end-adjustment
smoothing: `t < 0.5 ? 4t³ : 1 - (-2t+2)³/2`. -/
def easeInOutCubicR (t : ℝ) : ℝ :=
  if t < 1 / 2 then 4 * t * t * t else 1 - (-2 * t + 2) ^ 3 / 2

/-- Lines 559–563 of `getCameraTransformAtTime` (phase-2 branch): the output
rotation is a componentwise linear blend of two Euler triples with the given
smoothed progress.  In the source the endpoints are the fixed float constants
`userEuler` (derived by the three.js library from the configured look-at) and
`defaultCameraParams.rotation`; they are parameters here. -/
def cameraBlendRotation (userEuler defaultRotation : Vec3R) (smoothProgress : ℝ) : Vec3R :=
  ⟨userEuler.x + (defaultRotation.x - userEuler.x) * smoothProgress,
    userEuler.y + (defaultRotation.y - userEuler.y) * smoothProgress,
    userEuler.z + (defaultRotation.z - userEuler.z) * smoothProgress⟩

/-- The full phase-2 rotation path: ease the phase progress, then blend. -/
def phase2CameraRotation (userEuler defaultRotation : Vec3R) (progress : ℝ) : Vec3R :=
  cameraBlendRotation userEuler defaultRotation (easeInOutCubicR progress)

/-- `THREE.Euler → THREE.Quaternion` conversion for the default `XYZ` order,
as computed by `THREE.Quaternion.setFromEuler` (half-angle product formula). -/
def eulerToQuatXYZ (e : Vec3R) : QuatR :=
  let c1 := Real.cos (e.x / 2)
  let s1 := Real.sin (e.x / 2)
  let c2 := Real.cos (e.y / 2)
  let s2 := Real.sin (e.y / 2)
  let c3 := Real.cos (e.z / 2)
  let s3 := Real.sin (e.z / 2)
  ⟨s1 * c2 * c3 + c1 * s2 * s3,
    c1 * s2 * c3 - s1 * c2 * s3,
    c1 * c2 * s3 + s1 * s2 * c3,
    c1 * c2 * c3 - s1 * s2 * s3⟩

/-- Hamilton product in the `THREE.Quaternion.multiply` convention
(`a.multiply(b)` computes `a * b`). -/
def quatMulR (a b : QuatR) : QuatR :=
  ⟨a.x * b.w + a.w * b.x + a.y * b.z - a.z * b.y,
    a.y * b.w + a.w * b.y + a.z * b.x - a.x * b.z,
    a.z * b.w + a.w * b.z + a.x * b.y - a.y * b.x,
    a.w * b.w - a.x * b.x - a.y * b.y - a.z * b.z⟩

def normSqR (q : QuatR) : ℝ :=
  q.x ^ 2 + q.y ^ 2 + q.z ^ 2 + q.w ^ 2

def quatNegR (q : QuatR) : QuatR :=
  ⟨-q.x, -q.y, -q.z, -q.w⟩

/-- Modelled from the spec: "spherical linear interpolation on the providers'
quaternions".  `THREE.Quaternion.slerpQuaternions` is external library code
(not part of this repository's sources), so the standard slerp formula
`(sin((1-t)Ω)·q1 + sin(tΩ)·q2) / sin Ω` with `Ω = arccos⟨q1,q2⟩` is taken from
the spec's words for the refinement comparison. -/
def slerpSpec (q1 q2 : QuatR) (t : ℝ) : QuatR :=
  let d := q1.x * q2.x + q1.y * q2.y + q1.z * q2.z + q1.w * q2.w
  let om := Real.arccos d
  let s := Real.sin om
  ⟨(Real.sin ((1 - t) * om) * q1.x + Real.sin (t * om) * q2.x) / s,
    (Real.sin ((1 - t) * om) * q1.y + Real.sin (t * om) * q2.y) / s,
    (Real.sin ((1 - t) * om) * q1.z + Real.sin (t * om) * q2.z) / s,
    (Real.sin ((1 - t) * om) * q1.w + Real.sin (t * om) * q2.w) / s⟩

/-- Modelled from the spec: componentwise linear blending
`(1-s)·a + s·b` of Euler triples, for comparison with the code's blend. -/
def eulerLerpSpec (a b : Vec3R) (s : ℝ) : Vec3R :=
  ⟨(1 - s) * a.x + s * b.x, (1 - s) * a.y + s * b.y, (1 - s) * a.z + s * b.z⟩

/-- Modelled from the spec: "normalize" of the composed quaternion (divide by
the Euclidean norm). -/
def specNormalizeQ (q : QuatR) : QuatR :=
  ⟨q.x / Real.sqrt (normSqR q), q.y / Real.sqrt (normSqR q),
    q.z / Real.sqrt (normSqR q), q.w / Real.sqrt (normSqR q)⟩

structure CombinedTransform where
  finalPosition : Vec3R
  finalQuat : QuatR
  finalScale : Vec3R

/-- `AnimationMappingSystem.combineTransforms`: final position is base plus
animated, final rotation is the product of the quaternions obtained from the
base and animated Euler rotations (`setFromEuler`, then `multiply`), final
scale is the componentwise product.  (The source additionally converts
`finalQuat` back to an Euler and composes the 4×4 matrix from position,
quaternion and scale; those derived outputs are not needed by the claims.) -/
def combineTransforms (basePosition baseRotation baseScale : Vec3R)
    (animatedPosition animatedRotation animatedScale : Vec3R) : CombinedTransform :=
  { finalPosition := ⟨basePosition.x + animatedPosition.x,
      basePosition.y + animatedPosition.y, basePosition.z + animatedPosition.z⟩
    finalQuat := quatMulR (eulerToQuatXYZ baseRotation) (eulerToQuatXYZ animatedRotation)
    finalScale := ⟨baseScale.x * animatedScale.x, baseScale.y * animatedScale.y,
      baseScale.z * animatedScale.z⟩ }

end

end Anim
namespace Anim

/-- C1 (counterexample): in the scenario with a 7.0s Phase-1 clip, the 2.0s
blend phase and a 5.0s Phase-3 clip, resolving the exact boundary time `t = 7.0`
does NOT yield the blend phase (code phase number 2, the claim's phase index 1)
with phase-local time 0, and resolving `t = 9.0` does NOT yield the third phase
with phase-local time 0: `getCurrentPhase` uses inclusive upper bounds, so each
boundary belongs to the preceding phase. -/
theorem boundary_not_following_phase :
    (getCurrentPhase (calculateThreePhaseDuration (some 7) none [some 5]) 7).phase ≠ 2 ∧
    (getCurrentPhase (calculateThreePhaseDuration (some 7) none [some 5]) 7).phaseTime ≠ 0 ∧
    (getCurrentPhase (calculateThreePhaseDuration (some 7) none [some 5]) 9).phase ≠ 3 ∧
    (getCurrentPhase (calculateThreePhaseDuration (some 7) none [some 5]) 9).phaseTime ≠ 0 := by
  norm_num [getCurrentPhase, calculateThreePhaseDuration, phase3Duration, jsDiv]

/-- C1 (amended): in the same scenario the total duration is 14.0, and the
boundary times belong to the preceding phase: `t = 7.0` resolves to the first
phase (code phase number 1) with phase-local time 7.0 and progress 1, and
`t = 9.0` resolves to the blend phase (code phase number 2) with phase-local
time 2.0 and progress 1. -/
theorem threePhase_scenario_boundaries :
    totalDuration (calculateThreePhaseDuration (some 7) none [some 5]) = 14 ∧
    getCurrentPhase (calculateThreePhaseDuration (some 7) none [some 5]) 7
      = ⟨1, 7, some 1⟩ ∧
    getCurrentPhase (calculateThreePhaseDuration (some 7) none [some 5]) 9
      = ⟨2, 2, some 1⟩ := by
  norm_num [getCurrentPhase, calculateThreePhaseDuration, phase3Duration, jsDiv, totalDuration]

/-- C3: when the Phase-1 source record is absent (`null`) or has duration 0,
`calculateThreePhaseDuration` substitutes the configured 7.0s fallback as the
Phase-1 duration, so the total duration is `7 + 2 + phase3Duration`, not a
collapse toward zero. -/
theorem phase1_fallback_total (v6Original camera : Option ℚ) (rings : List (Option ℚ))
    (h : v6Original = none ∨ v6Original = some 0) :
    (calculateThreePhaseDuration v6Original camera rings).phase1 = 7 ∧
    totalDuration (calculateThreePhaseDuration v6Original camera rings)
      = 7 + 2 + phase3Duration camera rings := by
  rcases h with h | h <;> subst h <;> norm_num [calculateThreePhaseDuration, totalDuration]

/-- C3 witness: concrete instance (missing Phase-1 record, one 5.0s ring). -/
theorem phase1_fallback_total_witness :
    ((none : Option ℚ) = none ∨ (none : Option ℚ) = some 0) ∧
    totalDuration (calculateThreePhaseDuration none none [some 5])
      = 7 + 2 + phase3Duration none [some 5] :=
  ⟨Or.inl rfl, (phase1_fallback_total none none [some 5] (Or.inl rfl)).2⟩

/-- C4 (counterexample): with every phase-3 source missing, phase 3 has zero
duration, and resolving a query time inside it yields a non-finite progress
(`none`, the JS `Infinity`), not the claimed guarded value 1: `getCurrentPhase`
has no division-by-zero guard. -/
theorem zero_phase_progress_not_one :
    (calculateThreePhaseDuration (some 7) none []).phase3 = 0 ∧
    (getCurrentPhase (calculateThreePhaseDuration (some 7) none []) 10).progress ≠ some 1 := by
  refine ⟨by norm_num [calculateThreePhaseDuration, phase3Duration], ?_⟩
  have h : (getCurrentPhase (calculateThreePhaseDuration (some 7) none []) 10).progress = none := by
    norm_num [calculateThreePhaseDuration, phase3Duration, getCurrentPhase, jsDiv]
  rw [h]
  exact fun hc => Option.noConfusion hc

/-- C4 (amended): the progress division of `getCurrentPhase` is unguarded;
whenever phase 3 has zero duration, any query time strictly past the phase-2
boundary resolves with a non-finite progress value (`none`), never 1. -/
theorem zero_phase_progress_none (d : PhaseDurations) (t : ℚ)
    (h3 : d.phase3 = 0) (h2 : 0 ≤ d.phase2) (ht : d.phase1 + d.phase2 < t) :
    (getCurrentPhase d t).progress = none := by
  have hn1 : ¬ t ≤ d.phase1 := by linarith
  have hn2 : ¬ t ≤ d.phase1 + d.phase2 := by linarith
  simp [getCurrentPhase, hn1, hn2, jsDiv, h3]

/-- C4 witness: durations `(7, 2, 0)` at query time 10. -/
theorem zero_phase_progress_none_witness :
    (PhaseDurations.mk 7 2 0).phase3 = 0 ∧ (0:ℚ) ≤ (PhaseDurations.mk 7 2 0).phase2 ∧
    (PhaseDurations.mk 7 2 0).phase1 + (PhaseDurations.mk 7 2 0).phase2 < 10 ∧
    (getCurrentPhase ⟨7, 2, 0⟩ 10).progress = none :=
  ⟨rfl, by norm_num, by norm_num,
    zero_phase_progress_none ⟨7, 2, 0⟩ 10 rfl (by norm_num) (by norm_num)⟩

/-- C7: for a timeline of total duration `T` with the 1.5s end-adjustment
window, the adjustment factor is exactly 0 for every `t ≤ T - 1.5`, strictly
increasing on `T - 1.5 < t < T`, and equal to 1 at `t = T`. -/
theorem endAdjustFactor_profile (T : ℚ) :
    (∀ t, t ≤ T - 3 / 2 → endAdjustFactor T t = 0) ∧
    (∀ t1 t2, T - 3 / 2 < t1 → t1 < t2 → t2 < T →
      endAdjustFactor T t1 < endAdjustFactor T t2) ∧
    endAdjustFactor T T = 1 := by
  refine ⟨?_, ?_, ?_⟩
  · intro t ht
    rcases eq_or_lt_of_le ht with h | h
    · rw [endAdjustFactor, if_pos (le_of_eq h.symm)]
      rw [h]
      norm_num
    · rw [endAdjustFactor, if_neg (not_le.mpr h)]
  · intro t1 t2 h1 h12 h2
    rw [endAdjustFactor, endAdjustFactor, if_pos (le_of_lt h1), if_pos (by linarith)]
    have e1 : (t1 - (T - 3 / 2)) / (3 / 2) < 1 := by
      rw [div_lt_one (by norm_num)]; linarith
    have e2 : (t2 - (T - 3 / 2)) / (3 / 2) < 1 := by
      rw [div_lt_one (by norm_num)]; linarith
    rw [min_eq_right e1.le, min_eq_right e2.le]
    gcongr
  · rw [endAdjustFactor, if_pos (by linarith)]
    have h : T - (T - 3 / 2) = 3 / 2 := by ring
    rw [h]
    norm_num

/-- C7 witness: the 14.0s timeline of the spec's scenario, evaluated at
`t = 12`, `13`, `13.5` and `14`. -/
theorem endAdjustFactor_profile_witness :
    (12 : ℚ) ≤ 14 - 3 / 2 ∧ endAdjustFactor 14 12 = 0 ∧
    endAdjustFactor 14 13 < endAdjustFactor 14 (27 / 2) ∧
    endAdjustFactor 14 14 = 1 :=
  ⟨by norm_num, (endAdjustFactor_profile 14).1 12 (by norm_num),
    (endAdjustFactor_profile 14).2.1 13 (27 / 2) (by norm_num) (by norm_num) (by norm_num),
    (endAdjustFactor_profile 14).2.2⟩

end Anim
namespace Anim

/-- C2 (amended): the sampler clamps only at the upper end of the keyframe
range: for any track with at least one keyframe and any query time at or past
the last keyframe time, sampling returns the same value as sampling at the last
keyframe time.  (The lower end is NOT clamped; see the counterexample.) -/
theorem sampler_upper_clamp (slerpFn : Quat4 → Quat4 → ℚ → Quat4) (track : JsTrack)
    (componentCount : ℕ) (t : ℚ) (h0 : track.times ≠ [])
    (h : track.times.getLastD 0 ≤ t) :
    interpolateProperty slerpFn track t componentCount
      = interpolateProperty slerpFn track (track.times.getLastD 0) componentCount := by
  have hlen : ¬ track.times.length = 0 := by
    simpa [List.length_eq_zero] using h0
  have h1 : interpIndex track.times t = track.times.length - 1 := by
    rw [interpIndex, if_pos h]
  have h2 : interpIndex track.times (track.times.getLastD 0) = track.times.length - 1 := by
    rw [interpIndex, if_pos le_rfl]
  rw [interpolateProperty, interpolateProperty, if_neg hlen, if_neg hlen, h1, h2]
  simp

/-- C2 witness: the track `times = [0,1]`, `values = [0,10]` sampled at
`t = 5` equals the sample at the last keyframe time. -/
theorem sampler_upper_clamp_witness :
    (JsTrack.mk [0, 1] [0, 10]).times ≠ [] ∧
    (JsTrack.mk [0, 1] [0, 10]).times.getLastD 0 ≤ 5 ∧
    interpolateProperty (fun a _ _ => a) ⟨[0, 1], [0, 10]⟩ 5 1
      = interpolateProperty (fun a _ _ => a) ⟨[0, 1], [0, 10]⟩
          ((JsTrack.mk [0, 1] [0, 10]).times.getLastD 0) 1 :=
  ⟨by simp, by norm_num,
    sampler_upper_clamp (fun a _ _ => a) ⟨[0, 1], [0, 10]⟩ 1 5 (by simp) (by norm_num)⟩

/-- C2 (counterexample): for the scalar track `times = [0,1]`,
`values = [0,10]`, sampling at `t = -1 < times[0]` yields `-10`, linear
extrapolation along the first segment, which differs from the value `0` at
`times[0]`: the claimed lower-end clamp does not hold. -/
theorem sampler_no_lower_clamp :
    interpolateProperty (fun a _ _ => a) ⟨[0, 1], [0, 10]⟩ (-1) 1 = .scalar (-10) ∧
    interpolateProperty (fun a _ _ => a) ⟨[0, 1], [0, 10]⟩ 0 1 = .scalar 0 ∧
    interpolateProperty (fun a _ _ => a) ⟨[0, 1], [0, 10]⟩ (-1) 1
      ≠ interpolateProperty (fun a _ _ => a) ⟨[0, 1], [0, 10]⟩ 0 1 := by
  refine ⟨?_, ?_, ?_⟩ <;>
    norm_num [interpolateProperty, interpIndex, searchIntervalIdx, readDirect, lerpAt]

/-- C9: a track with zero keyframes samples, at any query time, to the
arity's neutral value: the identity quaternion `(0,0,0,1)` for component count
4, the zero vector for component count 3, and `0` for component count 1. -/
theorem empty_track_neutral (slerpFn : Quat4 → Quat4 → ℚ → Quat4)
    (values : List ℚ) (t : ℚ) :
    interpolateProperty slerpFn ⟨[], values⟩ t 4 = .quat 0 0 0 1 ∧
    interpolateProperty slerpFn ⟨[], values⟩ t 3 = .vec3 0 0 0 ∧
    interpolateProperty slerpFn ⟨[], values⟩ t 1 = .scalar 0 := by
  refine ⟨?_, ?_, ?_⟩ <;> norm_num [interpolateProperty]

end Anim
namespace Anim

lemma applyTrack_no_match (et : ExtractedTracks) (objectName : String) (tr : RawTrack)
    (h : tr.nameParts.headD "" ≠ objectName) : applyTrack et objectName tr = et := by
  rw [applyTrack, if_neg h]

lemma foldl_applyTrack_no_match (objectName : String) :
    ∀ (l : List RawTrack) (et : ExtractedTracks),
      (∀ tr ∈ l, tr.nameParts.headD "" ≠ objectName) →
      l.foldl (fun acc tr => applyTrack acc objectName tr) et = et := by
  intro l
  induction l with
  | nil => intro et _; rfl
  | cons tr rest ih =>
    intro et h
    simp only [List.foldl_cons]
    rw [applyTrack_no_match et objectName tr (h tr (by simp))]
    exact ih et fun tr' htr' => h tr' (by simp [htr'])

lemma applyAnimation_no_match (et : ExtractedTracks) (objectName : String)
    (a : RawAnimation) (h : ∀ tr ∈ a.tracks, tr.nameParts.headD "" ≠ objectName) :
    applyAnimation et objectName a
      = if a.duration > et.duration then { et with duration := a.duration } else et := by
  rw [applyAnimation, foldl_applyTrack_no_match objectName a.tracks _ h]

lemma foldl_applyAnimation_no_match (objectName : String) :
    ∀ (l : List RawAnimation) (et : ExtractedTracks),
      (∀ a ∈ l, ∀ tr ∈ a.tracks, tr.nameParts.headD "" ≠ objectName) →
      l.foldl (fun acc a => applyAnimation acc objectName a) et
        = { et with duration :=
              l.foldl (fun acc a => if a.duration > acc then a.duration else acc) et.duration } := by
  intro l
  induction l with
  | nil => intro et _; rfl
  | cons a rest ih =>
    intro et h
    simp only [List.foldl_cons]
    rw [applyAnimation_no_match et objectName a (h a (by simp))]
    by_cases hd : a.duration > et.duration
    · rw [if_pos hd, ih _ fun a' ha' => h a' (by simp [ha'])]
      simp [hd]
    · rw [if_neg hd, ih _ fun a' ha' => h a' (by simp [ha'])]
      simp [hd]

lemma foldl_ifgt_max : ∀ (l : List RawAnimation) (z : ℚ),
    l.foldl (fun acc a => if a.duration > acc then a.duration else acc) z
      = l.foldl (fun acc a => max acc a.duration) z := by
  intro l
  induction l with
  | nil => intro z; rfl
  | cons a rest ih =>
    intro z
    simp only [List.foldl_cons]
    rw [ih]
    congr 1
    rcases le_or_lt a.duration z with hle | hlt
    · rw [if_neg (not_lt.mpr hle), max_eq_left hle]
    · rw [if_pos hlt, max_eq_right hlt.le]

/-- C8 (amended): when the target node name matches no track of any animation
in the raw set, extraction returns normally with all three track slots absent
and track count 0, but its duration equals the maximum declared animation
duration of the whole set (0 only when the set itself is empty) — the duration
accumulation is independent of the name match. -/
theorem extract_no_match_spec (animations : List RawAnimation) (objectName : String)
    (h : ∀ a ∈ animations, ∀ tr ∈ a.tracks, tr.nameParts.headD "" ≠ objectName) :
    (extractObjectAnimationTracks animations objectName).position = none ∧
    (extractObjectAnimationTracks animations objectName).rotation = none ∧
    (extractObjectAnimationTracks animations objectName).scale = none ∧
    (extractObjectAnimationTracks animations objectName).trackCount = 0 ∧
    (extractObjectAnimationTracks animations objectName).duration
      = (animations.map RawAnimation.duration).foldl max 0 := by
  rw [extractObjectAnimationTracks, foldl_applyAnimation_no_match objectName animations _ h]
  refine ⟨rfl, rfl, rfl, rfl, ?_⟩
  rw [List.foldl_map]
  exact foldl_ifgt_max animations 0

/-- C8 witness: a one-animation set (duration 5) whose only track targets
node `Other`, extracted for the unmatched target `Ring`. -/
theorem extract_no_match_spec_witness :
    (∀ a ∈ [RawAnimation.mk 5 [⟨["Other", "position"], [0], [1, 2, 3]⟩]],
      ∀ tr ∈ a.tracks, tr.nameParts.headD "" ≠ "Ring") ∧
    (extractObjectAnimationTracks [⟨5, [⟨["Other", "position"], [0], [1, 2, 3]⟩]⟩]
        "Ring").duration
      = (([RawAnimation.mk 5 [⟨["Other", "position"], [0], [1, 2, 3]⟩]]).map
          RawAnimation.duration).foldl max 0 :=
  ⟨by decide, 
    (extract_no_match_spec [⟨5, [⟨["Other", "position"], [0], [1, 2, 3]⟩]⟩] "Ring"
      (by decide)).2.2.2.2⟩

/-- C8 (counterexample): extracting target `Ring` from a set whose single
5.0s animation only has a track for node `Other` returns absent tracks but
duration 5, not the claimed duration 0. -/
theorem extract_no_match_duration_counterexample :
    (["Other", "position"].headD "" ≠ "Ring") ∧
    extractObjectAnimationTracks [⟨5, [⟨["Other", "position"], [0], [1, 2, 3]⟩]⟩] "Ring"
      = ⟨none, none, none, 5, 0⟩ ∧ (5 : ℚ) ≠ 0 := by
  refine ⟨by decide, ?_, by norm_num⟩
  have hne : ("Other" : String) ≠ "Ring" := by decide
  norm_num [extractObjectAnimationTracks, applyAnimation, applyTrack, hne]

/-- C10: for a ring identifier with no entry in the transform table, the
accessors return the neutral defaults: zero vector position, zero Euler
rotation, unit scale `(1,1,1)`, and the identity transform matrix. -/
theorem unknown_ring_defaults (ringTransforms : List (String × RingTransform))
    (ringId : String) (h : ringTransforms.lookup ringId = none) :
    getRingPosition ringTransforms ringId = ⟨0, 0, 0⟩ ∧
    getRingRotation ringTransforms ringId = ⟨0, 0, 0⟩ ∧
    getRingScale ringTransforms ringId = ⟨1, 1, 1⟩ ∧
    getRingTransformMatrix ringTransforms ringId = 1 := by
  simp [getRingPosition, getRingRotation, getRingScale, getRingTransformMatrix, h]

/-- C10 witness: the empty transform table queried for `ring9`. -/
theorem unknown_ring_defaults_witness :
    ([] : List (String × RingTransform)).lookup "ring9" = none ∧
    getRingPosition [] "ring9" = ⟨0, 0, 0⟩ ∧
    getRingRotation [] "ring9" = ⟨0, 0, 0⟩ ∧
    getRingScale [] "ring9" = ⟨1, 1, 1⟩ ∧
    getRingTransformMatrix [] "ring9" = 1 := by
  have h := unknown_ring_defaults [] "ring9" rfl
  exact ⟨rfl, h.1, h.2.1, h.2.2.1, h.2.2.2⟩

end Anim
namespace Anim

lemma normSq_quatMulR (a b : QuatR) : normSqR (quatMulR a b) = normSqR a * normSqR b := by
  simp only [quatMulR, normSqR]
  ring

lemma normSq_eulerToQuatXYZ (e : Vec3R) : normSqR (eulerToQuatXYZ e) = 1 := by
  simp only [eulerToQuatXYZ, normSqR]
  have h1 := Real.sin_sq_add_cos_sq (e.x / 2)
  have h2 := Real.sin_sq_add_cos_sq (e.y / 2)
  have h3 := Real.sin_sq_add_cos_sq (e.z / 2)
  linear_combination
    ((Real.sin (e.y / 2) ^ 2 + Real.cos (e.y / 2) ^ 2) *
        (Real.sin (e.z / 2) ^ 2 + Real.cos (e.z / 2) ^ 2)) * h1
      + (Real.sin (e.z / 2) ^ 2 + Real.cos (e.z / 2) ^ 2) * h2 + h3

lemma specNormalizeQ_of_unit (q : QuatR) (h : normSqR q = 1) : specNormalizeQ q = q := by
  rw [specNormalizeQ, h, Real.sqrt_one]
  ext <;> simp

/-- C6: `combineTransforms` composes world position as the vector sum of base
and animated positions, world rotation as the (already unit-length, hence
normalized) quaternion product of the quaternions converted from the base and
animated Euler rotations, and world scale as the componentwise product of base
and animated scales. -/
theorem combineTransforms_spec (basePosition baseRotation baseScale : Vec3R)
    (animatedPosition animatedRotation animatedScale : Vec3R) :
    (combineTransforms basePosition baseRotation baseScale
        animatedPosition animatedRotation animatedScale).finalPosition
      = ⟨basePosition.x + animatedPosition.x, basePosition.y + animatedPosition.y,
          basePosition.z + animatedPosition.z⟩ ∧
    (combineTransforms basePosition baseRotation baseScale
        animatedPosition animatedRotation animatedScale).finalQuat
      = specNormalizeQ (quatMulR (eulerToQuatXYZ baseRotation)
          (eulerToQuatXYZ animatedRotation)) ∧
    normSqR (combineTransforms basePosition baseRotation baseScale
        animatedPosition animatedRotation animatedScale).finalQuat = 1 ∧
    (combineTransforms basePosition baseRotation baseScale
        animatedPosition animatedRotation animatedScale).finalScale
      = ⟨baseScale.x * animatedScale.x, baseScale.y * animatedScale.y,
          baseScale.z * animatedScale.z⟩ := by
  have hunit : normSqR (quatMulR (eulerToQuatXYZ baseRotation)
      (eulerToQuatXYZ animatedRotation)) = 1 := by
    rw [normSq_quatMulR, normSq_eulerToQuatXYZ, normSq_eulerToQuatXYZ, one_mul]
  exact ⟨rfl, (specNormalizeQ_of_unit _ hunit).symm, hunit, rfl⟩

lemma ease_half : easeInOutCubicR (1 / 2) = 1 / 2 := by
  rw [easeInOutCubicR, if_neg (lt_irrefl _)]
  norm_num

lemma sqrt_two_div_two_sq : Real.sqrt 2 / 2 * (Real.sqrt 2 / 2) = 1 / 2 := by
  rw [div_mul_div_comm, Real.mul_self_sqrt (by norm_num : (0:ℝ) ≤ 2)]
  norm_num

lemma phase2_rotation_at_half :
    phase2CameraRotation ⟨0, 0, 0⟩ ⟨Real.pi, Real.pi, 0⟩ (1 / 2)
      = ⟨Real.pi / 2, Real.pi / 2, 0⟩ := by
  rw [phase2CameraRotation, ease_half, cameraBlendRotation]
  simp only [Vec3R.mk.injEq]
  refine ⟨by ring, by ring, by ring⟩

lemma eulerToQuat_zero : eulerToQuatXYZ ⟨0, 0, 0⟩ = ⟨0, 0, 0, 1⟩ := by
  rw [eulerToQuatXYZ]
  simp only [QuatR.mk.injEq]
  norm_num

lemma eulerToQuat_pi_pi : eulerToQuatXYZ ⟨Real.pi, Real.pi, 0⟩ = ⟨0, 0, 1, 0⟩ := by
  rw [eulerToQuatXYZ]
  simp only [QuatR.mk.injEq]
  norm_num [Real.cos_pi_div_two, Real.sin_pi_div_two]

lemma eulerToQuat_half_pi_x :
    (eulerToQuatXYZ ⟨Real.pi / 2, Real.pi / 2, 0⟩).x = 1 / 2 := by
  rw [eulerToQuatXYZ]
  have h4 : Real.pi / 2 / 2 = Real.pi / 4 := by ring
  simp only [h4, Real.cos_pi_div_four, Real.sin_pi_div_four]
  norm_num [sqrt_two_div_two_sq]

lemma slerp_x_at_half :
    (slerpSpec ⟨0, 0, 0, 1⟩ ⟨0, 0, 1, 0⟩ (1 / 2)).x = 0 := by
  rw [slerpSpec]
  norm_num

/-- C5 (counterexample): during the blend phase the code's rotation output is
NOT the spherical linear interpolation of the endpoint quaternions: for
endpoint Eulers `(0,0,0)` and `(π,π,0)` at progress 1/2 (eased to 1/2), the
componentwise Euler blend gives `(π/2,π/2,0)`, whose quaternion
`(1/2,1/2,1/2,1/2)` is not (even up to sign) the slerp result
`(0,0,√2/2,√2/2)`. -/
theorem blend_rotation_not_slerp :
    ¬ (eulerToQuatXYZ (phase2CameraRotation ⟨0, 0, 0⟩ ⟨Real.pi, Real.pi, 0⟩ (1 / 2))
        = slerpSpec (eulerToQuatXYZ ⟨0, 0, 0⟩) (eulerToQuatXYZ ⟨Real.pi, Real.pi, 0⟩)
            (easeInOutCubicR (1 / 2)) ∨
      eulerToQuatXYZ (phase2CameraRotation ⟨0, 0, 0⟩ ⟨Real.pi, Real.pi, 0⟩ (1 / 2))
        = quatNegR (slerpSpec (eulerToQuatXYZ ⟨0, 0, 0⟩) (eulerToQuatXYZ ⟨Real.pi, Real.pi, 0⟩)
            (easeInOutCubicR (1 / 2)))) := by
  rw [phase2_rotation_at_half, eulerToQuat_zero, eulerToQuat_pi_pi, ease_half]
  rintro (h | h)
  · have hx := congrArg QuatR.x h
    rw [eulerToQuat_half_pi_x, slerp_x_at_half] at hx
    norm_num at hx
  · have hx := congrArg QuatR.x h
    have hneg : (quatNegR (slerpSpec ⟨0, 0, 0, 1⟩ ⟨0, 0, 1, 0⟩ (1 / 2))).x = 0 := by
      show -(slerpSpec ⟨0, 0, 0, 1⟩ ⟨0, 0, 1, 0⟩ (1 / 2)).x = 0
      rw [slerp_x_at_half]
      norm_num
    rw [eulerToQuat_half_pi_x, hneg] at hx
    norm_num at hx

/-- C5 (amended): during the blend phase the rotation component of the output
is computed by componentwise linear blending of the start and end Euler angles
with the eased progress (`(1-s)·a + s·b` per component), not by quaternion
slerp. -/
theorem blend_rotation_euler_lerp (userEuler defaultRotation : Vec3R) (progress : ℝ) :
    phase2CameraRotation userEuler defaultRotation progress
      = eulerLerpSpec userEuler defaultRotation (easeInOutCubicR progress) := by
  rw [phase2CameraRotation, cameraBlendRotation, eulerLerpSpec]
  simp only [Vec3R.mk.injEq]
  refine ⟨by ring, by ring, by ring⟩

end Anim
